import Mathlib

/-!
# Verification of the pocket-cache backends

Shallow embedding of the cache library under test:

* the in-memory backend (src/quickcache/backends/memory.py),
* the filesystem backend (src/pocket_cache/backends/filesystem.py),
* the facade and its memoization decorators
  (src/pocket_cache/cache.py, src/quickcache/utils/decorators.py).

Python strings are modelled as lists of code points, byte strings as lists
of byte values, and timestamps as rationals.  Exceptions are modelled with
an explicit error type; every stateful operation returns its final state
next to its result, so post-failure states can be inspected.
-/

/-- A Python string, as its list of code points. -/
abbrev PyStr := List Nat

/-- A Python byte string, as its list of byte values. -/
abbrev Bytes := List Nat

/-- Code points of an ASCII Lean string literal, used to embed the string
literals occurring in the source. -/
def pyStr (s : String) : PyStr := s.data.map Char.toNat

/-- The Python exceptions the embedded code can raise. -/
inductive PyErr where
  | typeError
  | keyError
  | attributeError
  | ioError
  | unicodeDecodeError
  deriving DecidableEq

/-! ## Association-list model of dict and directory state

Python dict insertion, lookup and removal, and equally a directory of named
files, are modelled by association lists keyed by strings.  Insertion
replaces any previous binding of the key; removal drops every binding. -/

/-- Look up the first binding of a key. -/
def alookup {β : Type} (k : PyStr) : List (PyStr × β) → Option β
  | [] => none
  | (k', v) :: rest => if k' = k then some v else alookup k rest

/-- Drop every binding of a key. -/
def aremove {β : Type} (k : PyStr) : List (PyStr × β) → List (PyStr × β)
  | [] => []
  | (k', v) :: rest =>
    if k' = k then aremove k rest else (k', v) :: aremove k rest

/-- Insert a binding, replacing any previous binding of the key. -/
def aset {β : Type} (k : PyStr) (v : β) (m : List (PyStr × β)) :
    List (PyStr × β) :=
  (k, v) :: aremove k m

theorem alookup_aset_self {β : Type} (k : PyStr) (v : β) (m) :
    alookup k (aset k v m) = some v := by
  simp [aset, alookup]

theorem alookup_aremove_self {β : Type} (k : PyStr) (m : List (PyStr × β)) :
    alookup k (aremove k m) = none := by
  induction m with
  | nil => rfl
  | cons p rest ih =>
    obtain ⟨k', v⟩ := p
    by_cases h : k' = k <;> simp [aremove, alookup, h, ih]

theorem alookup_aremove_ne {β : Type} {k p : PyStr} (m : List (PyStr × β))
    (h : p ≠ k) : alookup p (aremove k m) = alookup p m := by
  induction m with
  | nil => rfl
  | cons q rest ih =>
    obtain ⟨k', v⟩ := q
    by_cases hk : k' = k
    · rw [aremove, if_pos hk, ih, alookup,
        if_neg (fun hh : k' = p => h (hh ▸ hk))]
    · rw [aremove, if_neg hk, alookup, alookup]
      by_cases hp : k' = p
      · rw [if_pos hp, if_pos hp]
      · rw [if_neg hp, if_neg hp, ih]

theorem alookup_aset_ne {β : Type} {k p : PyStr} (v : β) (m)
    (h : p ≠ k) : alookup p (aset k v m) = alookup p m := by
  rw [aset, alookup, if_neg (fun hh => h hh.symm)]
  exact alookup_aremove_ne m h

theorem aremove_of_alookup_none {β : Type} {k : PyStr}
    {m : List (PyStr × β)} (h : alookup k m = none) : aremove k m = m := by
  induction m with
  | nil => rfl
  | cons p rest ih =>
    obtain ⟨k', v⟩ := p
    by_cases hk : k' = k
    · simp [alookup, hk] at h
    · simp [alookup, hk] at h
      simp [aremove, hk, ih h]

theorem aremove_aremove {β : Type} (k : PyStr) (m : List (PyStr × β)) :
    aremove k (aremove k m) = aremove k m := by
  induction m with
  | nil => rfl
  | cons p rest ih =>
    obtain ⟨k', v⟩ := p
    by_cases hk : k' = k <;> simp [aremove, hk, ih]

/-! ## UTF-8

The filesystem backend decodes the stored byte string with
bytes.decode("utf-8") and re-encodes it with str.encode("utf-8").  The
strict decoder below follows the UTF-8 validation Python performs: it
rejects stray continuation bytes, truncated sequences, overlong encodings,
surrogate code points and code points above 0x10FFFF. -/

/-- Is the byte a UTF-8 continuation byte? -/
def isCont (b : Nat) : Bool := 0x80 ≤ b && b < 0xC0

/-- Encode one code point to UTF-8 bytes. -/
def utf8EncodeChar (c : Nat) : List Nat :=
  if c < 0x80 then [c]
  else if c < 0x800 then [0xC0 + c / 64, 0x80 + c % 64]
  else if c < 0x10000 then
    [0xE0 + c / 4096, 0x80 + c / 64 % 64, 0x80 + c % 64]
  else
    [0xF0 + c / 262144, 0x80 + c / 4096 % 64, 0x80 + c / 64 % 64,
      0x80 + c % 64]

/-- Encode a sequence of code points to UTF-8 bytes
(Python str.encode("utf-8")). -/
def utf8Encode (cs : List Nat) : List Nat := (cs.map utf8EncodeChar).flatten

/-- Decode one UTF-8 sequence from the head of a byte stream, returning the
code point and the remaining bytes; none models an invalid sequence. -/
def utf8Step (b0 : Nat) (rest : List Nat) : Option (Nat × List Nat) :=
  if b0 < 0x80 then some (b0, rest)
  else if b0 < 0xC2 then none
  else if b0 < 0xE0 then
    match rest with
    | b1 :: rest1 =>
      if isCont b1 then some ((b0 - 0xC0) * 64 + (b1 - 0x80), rest1)
      else none
    | [] => none
  else if b0 < 0xF0 then
    match rest with
    | b1 :: b2 :: rest2 =>
      if isCont b1 && isCont b2 && !(b0 == 0xE0 && b1 < 0xA0) &&
          !(b0 == 0xED && 0xA0 ≤ b1) then
        some ((b0 - 0xE0) * 4096 + (b1 - 0x80) * 64 + (b2 - 0x80), rest2)
      else none
    | _ => none
  else if b0 < 0xF5 then
    match rest with
    | b1 :: b2 :: b3 :: rest3 =>
      if isCont b1 && isCont b2 && isCont b3 &&
          !(b0 == 0xF0 && b1 < 0x90) && !(b0 == 0xF4 && 0x90 ≤ b1) then
        some ((b0 - 0xF0) * 262144 + (b1 - 0x80) * 4096 +
          (b2 - 0x80) * 64 + (b3 - 0x80), rest3)
      else none
    | _ => none
  else none

theorem utf8Step_length {b0 : Nat} {rest : List Nat} {c : Nat}
    {rest' : List Nat} (h : utf8Step b0 rest = some (c, rest')) :
    rest'.length ≤ rest.length := by
  unfold utf8Step at h
  repeat' split at h
  all_goals simp_all
  all_goals omega

/-- A successful step re-encodes to exactly the bytes it consumed. -/
theorem utf8Step_encode {b0 : Nat} {rest : List Nat} {c : Nat}
    {rest' : List Nat} (h : utf8Step b0 rest = some (c, rest')) :
    utf8EncodeChar c ++ rest' = b0 :: rest := by
  unfold utf8Step at h
  repeat' split at h
  all_goals simp_all [isCont]
  all_goals obtain ⟨hc, hr⟩ := h
  all_goals subst hc
  all_goals subst hr
  · -- one byte
    rw [utf8EncodeChar, if_pos (by omega)]
    simp
  · -- two bytes
    rw [utf8EncodeChar, if_neg (by omega), if_pos (by omega)]
    simp only [List.cons_append, List.nil_append, List.cons.injEq]
    refine ⟨by omega, by omega, trivial⟩
  · -- three bytes
    rw [utf8EncodeChar, if_neg (by omega), if_neg (by omega),
      if_pos (by omega)]
    simp only [List.cons_append, List.nil_append, List.cons.injEq]
    refine ⟨by omega, by omega, by omega, trivial⟩
  · -- four bytes
    rw [utf8EncodeChar, if_neg (by omega), if_neg (by omega),
      if_neg (by omega)]
    simp only [List.cons_append, List.nil_append, List.cons.injEq]
    refine ⟨by omega, by omega, by omega, by omega, trivial⟩

/-- Strict UTF-8 decoding with a fuel bound on the number of decoded
characters; each step consumes at least one byte, so fuel equal to the
byte length is always sufficient and the fuel-exhausted arm is never
reached from utf8Decode. -/
def utf8DecodeAux : Nat → List Nat → Option (List Nat)
  | _, [] => some []
  | 0, _ :: _ => none
  | fuel + 1, b0 :: rest =>
    match utf8Step b0 rest with
    | none => none
    | some (c, rest2) => (utf8DecodeAux fuel rest2).map (fun cs => c :: cs)

/-- Strict UTF-8 decoding of a byte sequence into code points
(Python bytes.decode("utf-8")); none models a UnicodeDecodeError. -/
def utf8Decode (l : List Nat) : Option (List Nat) := utf8DecodeAux l.length l

theorem utf8Encode_utf8DecodeAux :
    ∀ (fuel : Nat) (v cs : List Nat),
      utf8DecodeAux fuel v = some cs → utf8Encode cs = v := by
  intro fuel
  induction fuel with
  | zero =>
    intro v cs h
    cases v with
    | nil =>
      simp only [utf8DecodeAux, Option.some.injEq] at h
      subst h
      rfl
    | cons b0 rest => exact absurd h (by simp [utf8DecodeAux])
  | succ n ih =>
    intro v cs h
    cases v with
    | nil =>
      simp only [utf8DecodeAux, Option.some.injEq] at h
      subst h
      rfl
    | cons b0 rest =>
      rw [utf8DecodeAux] at h
      cases hstep : utf8Step b0 rest with
      | none => rw [hstep] at h; exact absurd h (by simp)
      | some p =>
        obtain ⟨c, rest2⟩ := p
        rw [hstep] at h
        simp only [Option.map_eq_some'] at h
        obtain ⟨cs2, hdec, hcs⟩ := h
        subst hcs
        have henc : utf8Encode (c :: cs2) =
            utf8EncodeChar c ++ utf8Encode cs2 := by
          simp [utf8Encode]
        rw [henc, ih rest2 cs2 hdec, utf8Step_encode hstep]

/-- Re-encoding a successfully decoded byte sequence restores it
byte for byte. -/
theorem utf8Encode_utf8Decode {v cs : List Nat}
    (h : utf8Decode v = some cs) : utf8Encode cs = v :=
  utf8Encode_utf8DecodeAux v.length v cs h

/-! ## JSON values

The filesystem backend persists each record with json.dump and reads it
back with json.loads; the facade serializer is json.dumps/json.loads as
well.  Since that byte-level round trip is the identity on the JSON value
universe, file contents and serializer payloads are modelled by the JSON
value they denote; contents that do not parse are modelled separately. -/

/-- A JSON value (the result of json.loads).  Strings are Python strings,
numbers are rationals. -/
inductive J where
  | null
  | bool (b : Bool)
  | num (q : ℚ)
  | str (s : PyStr)
  | arr (elems : List J)
  | obj (fields : List (PyStr × J))

/-- Python subscript data[k] on a parsed JSON document: a KeyError on a
mapping without the key, a TypeError on any non-mapping. -/
def jGetItem (d : J) (k : PyStr) : Except PyErr J :=
  match d with
  | J.obj fields =>
    match alookup k fields with
    | some v => Except.ok v
    | none => Except.error PyErr.keyError
  | _ => Except.error PyErr.typeError

/-- Python comparison now > x for a float now: defined for numbers and for
bools (which are the integers 0 and 1), a TypeError otherwise. -/
def pyGtFloat (now : ℚ) : J → Except PyErr Bool
  | J.num q => Except.ok (decide (q < now))
  | J.bool b => Except.ok (decide ((if b then (1 : ℚ) else 0) < now))
  | _ => Except.error PyErr.typeError

/-- Python x.encode("utf-8"): defined on strings (the strings arising here
come from strict UTF-8 decoding, so they re-encode without error), an
AttributeError on any other value. -/
def pyEncodeUtf8 : J → Except PyErr Bytes
  | J.str s => Except.ok (utf8Encode s)
  | _ => Except.error PyErr.attributeError

/-! ## In-memory backend (src/quickcache/backends/memory.py)

State: a dict from key to (value bytes, absolute expiry), plus one lock.
The lock serialises the operations; each operation below is one critical
section, so the sequential functions model the locked code directly.
Expiries are datetimes; ttl none models passing None where the annotated
type is timedelta. -/

/-- The memory backend state: the dict self cache. -/
abbrev MemState := List (PyStr × (Bytes × ℚ))

/-- MemoryBackend.get: look up; absent gives None; an entry whose expiry
is strictly before now is deleted and treated as absent. -/
def memGet (s : MemState) (key : PyStr) (now : ℚ) : MemState × Option Bytes :=
  match alookup key s with
  | none => (s, none)
  | some (v, expiry) =>
    if expiry < now then (aremove key s, none) else (s, some v)

/-- MemoryBackend.set: expiry = datetime.now() + ttl, then insert/replace.
With ttl = None the addition raises a TypeError before any mutation. -/
def memSet (s : MemState) (key : PyStr) (value : Bytes) (ttl : Option ℚ)
    (now : ℚ) : MemState × Except PyErr Unit :=
  match ttl with
  | none => (s, Except.error PyErr.typeError)
  | some d => (aset key (value, now + d) s, Except.ok ())

/-- MemoryBackend.delete: self cache.pop(key, None) — removes the entry if
present, silently does nothing otherwise. -/
def memDelete (s : MemState) (key : PyStr) : MemState := aremove key s

/-! ## Filesystem backend (src/pocket_cache/backends/filesystem.py)

The cache directory is a map from file name to file content.  A file
either holds a JSON document, or bytes that decode as UTF-8 but fail JSON
parsing (corrupt), or bytes that are not valid UTF-8 (invalidUtf8), or
exists but cannot be opened (unreadable, e.g. permission denied).  The
corrupt/invalidUtf8 split matters: reading runs
json.loads(f.read().decode("utf-8")), and the two failure modes raise
different exceptions of which only the first is caught. -/

/-- Content of one file in the cache directory. -/
inductive FileData where
  | json (d : J)
  | corrupt
  | invalidUtf8
  | unreadable

/-- The cache directory: file name to content. -/
abbrev FS := List (PyStr × FileData)

/-- FileSystemCache. get file path: os.path.join(cache dir,
str(hash(key)) + ".cache").  The Python hash is seeded per process but is
a fixed function of the key within a process; no claim depends on the
digit string itself, only on determinism and on the ".cache" suffix, so
the model keeps the key itself in place of the hash digits.  Paths are
relative to the cache directory. -/
def filePath (key : PyStr) : PyStr := key ++ pyStr ".cache"

/-- The temporary path used by the atomic write: path + ".tmp". -/
def tempPath (key : PyStr) : PyStr := filePath key ++ pyStr ".tmp"

/-- FileSystemCache. read cache file.  The try block covers open, decode,
parse and the expiry check, but the except clause names only IOError,
JSONDecodeError and KeyError: a file that is absent or unreadable
(IOError), UTF-8 text that is not valid JSON (JSONDecodeError) and a
record without the expiry field (KeyError) yield None, while any other
exception propagates — the UnicodeDecodeError from file bytes that are
not valid UTF-8, and the TypeError from comparing a float with a
non-numeric expiry or from subscripting a non-mapping.  An expired record
is unlinked (best effort) and treated as absent. -/
def readCacheFile (fs : FS) (path : PyStr) (now : ℚ) :
    FS × Except PyErr (Option J) :=
  match alookup path fs with
  | none => (fs, Except.ok none)
  | some FileData.unreadable => (fs, Except.ok none)
  | some FileData.corrupt => (fs, Except.ok none)
  | some FileData.invalidUtf8 => (fs, Except.error PyErr.unicodeDecodeError)
  | some (FileData.json d) =>
    match jGetItem d (pyStr "expires_at") with
    | Except.error PyErr.keyError => (fs, Except.ok none)
    | Except.error e => (fs, Except.error e)
    | Except.ok J.null => (fs, Except.ok (some d))
    | Except.ok e =>
      match pyGtFloat now e with
      | Except.error e2 => (fs, Except.error e2)
      | Except.ok true => (aremove path fs, Except.ok none)
      | Except.ok false => (fs, Except.ok (some d))

/-- Which step of the atomic write protocol fails with an IOError, if
any: writing the temporary file, os.chmod, or os.replace. -/
inductive WriteOutcome where
  | allOk
  | failWrite
  | failChmod
  | failReplace
  deriving DecidableEq

/-- FileSystemCache. write cache file.  A non-positive ttl returns without
touching anything.  Otherwise the record {"value": value.decode("utf-8"),
"created_at": now, "expires_at": now + ttl or null} is written to
path + ".tmp", chmod-ed, and renamed onto the final path.  On an IOError
in any of those steps the handler unlinks the temporary file if it exists
and re-raises; decoding non-UTF-8 value bytes raises before the try
block. -/
def writeCacheFile (fs : FS) (key : PyStr) (value : Bytes)
    (ttl : Option ℚ) (now : ℚ) (w : WriteOutcome) :
    FS × Except PyErr Unit :=
  match ttl with
  | some d =>
    if d ≤ 0 then (fs, Except.ok ())
    else writeRecordFile fs key value (some (now + d)) now w
  | none => writeRecordFile fs key value none now w
where
  /-- The body after the ttl guard: build the record and write it with the
  temp-then-rename protocol. -/
  writeRecordFile (fs : FS) (key : PyStr) (value : Bytes)
      (expiresAt : Option ℚ) (now : ℚ) (w : WriteOutcome) :
      FS × Except PyErr Unit :=
    match utf8Decode value with
    | none => (fs, Except.error PyErr.unicodeDecodeError)
    | some s =>
      let record := J.obj [(pyStr "value", J.str s),
        (pyStr "created_at", J.num now),
        (pyStr "expires_at",
          match expiresAt with
          | some e => J.num e
          | none => J.null)]
      match w with
      | WriteOutcome.allOk =>
        (aset (filePath key) (FileData.json record)
          (aremove (tempPath key) fs), Except.ok ())
      | _ => (aremove (tempPath key) fs, Except.error PyErr.ioError)

/-- FileSystemCache. remove file: os.unlink with OSError swallowed, so an
absent file or a failing unlink never raises. -/
def removeFile (fs : FS) (path : PyStr) : FS := aremove path fs

/-- FileSystemCache.get: read the record at the derived path; when a
record with a "value" string survives the expiry check, return the string
re-encoded as UTF-8 bytes, else None. -/
def fsGet (fs : FS) (key : PyStr) (now : ℚ) :
    FS × Except PyErr (Option Bytes) :=
  match readCacheFile fs (filePath key) now with
  | (fs2, Except.error e) => (fs2, Except.error e)
  | (fs2, Except.ok none) => (fs2, Except.ok none)
  | (fs2, Except.ok (some d)) =>
    -- if data and "value" in data: return data["value"].encode("utf-8")
    -- d is a mapping with an "expires_at" field here, hence truthy
    match d with
    | J.obj fields =>
      match alookup (pyStr "value") fields with
      | some jv =>
        match pyEncodeUtf8 jv with
        | Except.ok bs => (fs2, Except.ok (some bs))
        | Except.error e => (fs2, Except.error e)
      | none => (fs2, Except.ok none)
    | _ => (fs2, Except.ok none)

/-- FileSystemCache.set: a ttl that is present and non-positive behaves as
delete(key) and returns; otherwise the record is written via the atomic
protocol. -/
def fsSet (fs : FS) (key : PyStr) (value : Bytes) (ttl : Option ℚ)
    (now : ℚ) (w : WriteOutcome) : FS × Except PyErr Unit :=
  match ttl with
  | some d =>
    if d ≤ 0 then (removeFile fs (filePath key), Except.ok ())
    else writeCacheFile fs key value ttl now w
  | none => writeCacheFile fs key value none now w

/-- FileSystemCache.delete: remove the file at the derived path, absent
file or failing unlink swallowed. -/
def fsDelete (fs : FS) (key : PyStr) : FS := removeFile fs (filePath key)

/-- Does the file name end in the cache-artifact suffix ".cache"? -/
def endsWithCache (name : PyStr) : Bool := decide (pyStr ".cache" <:+ name)

/-- FileSystemCache.clear: no-op when the cache directory does not exist;
os.listdir failure (e.g. permission denied) is swallowed; every listed
file whose name ends in ".cache" is removed best-effort (removeFails says
which unlinks fail with a swallowed OSError); other files are untouched.
The operation never raises. -/
def fsClear (fs : FS) (dirExists : Bool) (enumOk : Bool)
    (removeFails : PyStr → Bool) : FS :=
  if !dirExists then fs
  else if !enumOk then fs
  else fs.filter (fun nf => !endsWithCache nf.1 || removeFails nf.1)

/-! ## Facade and memoization decorators

The facade (Cache in src/pocket_cache/cache.py) binds a backend, a
serializer and a default ttl.  The serializer is json.dumps/json.loads;
json.dumps is injective on JSON values and json.loads inverts it, so a
serialized byte string is modelled by the JSON value it denotes.  Python
values flowing through the decorators are JSON values, with J.null
standing for Python None. -/

/-- A serialized payload, identified with the JSON value it denotes. -/
abbrev SerBytes := J

/-- JSONSerializer.serialize: json.dumps(value).encode("utf-8"), modulo
the denotation above. -/
def jsonSerialize (v : J) : SerBytes := v

/-- JSONSerializer.deserialize: json.loads(value.decode("utf-8")), modulo
the denotation above. -/
def jsonDeserialize (b : SerBytes) : J := b

/-- Backend state used by the facade: key to (payload, expiry or never). -/
abbrev FacadeState := List (PyStr × (SerBytes × Option ℚ))

/-- Modelled from the spec: pocket_cache.backends.memory.MemoryCache, the
facade default backend, is imported by cache.py but missing from src/.
Spec 4.2: get looks up under the lock; absent gives absent; an expiry in
the past removes the entry and gives absent; otherwise the value. -/
def pmGet (s : FacadeState) (key : PyStr) (now : ℚ) :
    FacadeState × Option SerBytes :=
  match alookup key s with
  | none => (s, none)
  | some (v, none) => (s, some v)
  | some (v, some e) => if e < now then (aremove key s, none) else (s, some v)

/-- Modelled from the spec: MemoryCache.set (missing from src/); spec 4.2:
expiry is now + ttl, or never when ttl is none; insert/replace under the
lock. -/
def pmSet (s : FacadeState) (key : PyStr) (v : SerBytes) (ttl : Option ℚ)
    (now : ℚ) : FacadeState :=
  aset key (v, ttl.map (fun d => now + d)) s

/-- Cache.get (cache.py): backend.get, then the default (None) on a miss,
else the deserialized payload. -/
def cacheGet (s : FacadeState) (key : PyStr) (now : ℚ) : FacadeState × J :=
  match pmGet s key now with
  | (s2, none) => (s2, J.null)
  | (s2, some data) => (s2, jsonDeserialize data)

/-- Cache.set (cache.py): a none ttl falls back to the default ttl, an
int ttl becomes a timedelta; the serialized value is stored. -/
def cacheSet (s : FacadeState) (key : PyStr) (value : J) (ttl : Option ℚ)
    (defaultTtl : ℚ) (now : ℚ) : FacadeState :=
  let t : ℚ :=
    match ttl with
    | none => defaultTtl
    | some q => q
  pmSet s key (jsonSerialize value) (some t) now

/-- Result of one call of a memoized function: the returned value, the
cache state afterwards, and whether the underlying function ran. -/
structure CallResult where
  ret : J
  state : FacadeState
  invoked : Bool

/-- One call of a function wrapped by Cache.cached (cache.py): read the
cache; a result that is not None is returned as a hit; otherwise the
function runs (its return value is fres), the result is stored, and
returned.  The key is fixed because the arguments are. -/
def cachedCall (fres : J) (key : PyStr) (ttl : Option ℚ) (defaultTtl : ℚ)
    (s : FacadeState) (now : ℚ) : CallResult :=
  match cacheGet s key now with
  | (s1, J.null) =>
    let result := fres
    let s2 := cacheSet s1 key result ttl defaultTtl now
    ⟨result, s2, true⟩
  | (s1, r) => ⟨r, s1, false⟩

/-- One call of a function wrapped by the standalone cached decorator
(src/quickcache/utils/decorators.py).  The wrapper body is from the
source: cache.get, return any non-None result, else call the function,
cache.set, return.  The Cache it calls is quickcache/cache.py, which is
missing from src/; its get and set are modelled from the spec exactly as
the facade above (serialize/deserialize around a backend with default
ttl). -/
def cachedHelperCall (fres : J) (key : PyStr) (ttl : Option ℚ)
    (defaultTtl : ℚ) (s : FacadeState) (now : ℚ) : CallResult :=
  match cacheGet s key now with
  | (s1, J.null) =>
    let result := fres
    let s2 := cacheSet s1 key result ttl defaultTtl now
    ⟨result, s2, true⟩
  | (s1, r) => ⟨r, s1, false⟩

/-! ## Claims -/

/-- C1: for the filesystem backend, set with a ttl d ≤ 0 behaves exactly
as delete(key): it succeeds, the resulting state is the delete result, no
file remains at the derived path, every other path — in particular the
temporary path — is untouched (so nothing is created), and a subsequent
get at any time returns absent. -/
theorem fsSet_nonpositive_ttl_behaves_as_delete (fs : FS) (key : PyStr)
    (value : Bytes) (d now now2 : ℚ) (w : WriteOutcome) (hd : d ≤ 0) :
    fsSet fs key value (some d) now w = (fsDelete fs key, Except.ok ()) ∧
    alookup (filePath key) (fsDelete fs key) = none ∧
    (∀ p : PyStr, p ≠ filePath key →
      alookup p (fsDelete fs key) = alookup p fs) ∧
    (fsGet (fsDelete fs key) key now2).2 = Except.ok none := by
  refine ⟨?_, ?_, ?_, ?_⟩
  · simp [fsSet, hd, fsDelete]
  · simp [fsDelete, removeFile, alookup_aremove_self]
  · intro p hp
    simp [fsDelete, removeFile, alookup_aremove_ne _ hp]
  · simp [fsGet, readCacheFile, fsDelete, removeFile, alookup_aremove_self]

/-- C1 witness: concrete instance with key "k", value b"v1", ttl 0. -/
theorem fsSet_nonpositive_ttl_behaves_as_delete_witness :
    ((0 : ℚ) ≤ 0) ∧
    alookup (filePath (pyStr "k")) (fsDelete [] (pyStr "k")) = none :=
  ⟨le_refl 0,
    (fsSet_nonpositive_ttl_behaves_as_delete [] (pyStr "k") (pyStr "v1")
      0 0 0 WriteOutcome.allOk (le_refl 0)).2.1⟩

/-- C2 counterexample: the in-memory backend set does not accept a none
ttl: datetime.now() + None raises a TypeError, nothing is stored, and a
later get finds nothing — so set("k", b"v", ttl=none) does not succeed
and does not create a never-expiring entry. -/
theorem memSet_none_ttl_raises_cex :
    memSet [] (pyStr "k") (pyStr "v") none 0 =
      ([], Except.error PyErr.typeError) ∧
    (memGet [] (pyStr "k") 100).2 = none :=
  ⟨rfl, rfl⟩

/-- C2 (amended): the in-memory backend set requires a timedelta ttl.
With ttl = none it raises a TypeError and leaves the state unchanged (no
never-expiring entry exists in this backend); with a duration d it stores
the entry with expiry now + d, and get returns the value at any time not
after that expiry. -/
theorem memSet_requires_ttl (s : MemState) (key : PyStr) (value : Bytes)
    (now : ℚ) :
    memSet s key value none now = (s, Except.error PyErr.typeError) ∧
    (∀ d t : ℚ,
      memSet s key value (some d) now =
        (aset key (value, now + d) s, Except.ok ()) ∧
      (¬ now + d < t →
        memGet (aset key (value, now + d) s) key t =
          (aset key (value, now + d) s, some value))) := by
  refine ⟨rfl, ?_⟩
  intro d t
  refine ⟨rfl, ?_⟩
  intro ht
  simp [memGet, alookup_aset_self, ht]

/-- C2 witness: concrete instance with ttl 5 read back exactly at the
expiry. -/
theorem memSet_requires_ttl_witness :
    ¬ (0 : ℚ) + 5 < 0 + 5 ∧
    memGet (aset (pyStr "k") (pyStr "v", (0 : ℚ) + 5) []) (pyStr "k")
        (0 + 5) =
      (aset (pyStr "k") (pyStr "v", (0 : ℚ) + 5) [], some (pyStr "v")) :=
  ⟨lt_irrefl _,
    ((memSet_requires_ttl [] (pyStr "k") (pyStr "v") 0).2 5 (0 + 5)).2
      (lt_irrefl _)⟩

/-- C7: delete is a safe no-op on an absent key for both backends — it
does not raise (both embeddings are total functions: quickcache pop with
a default, pocket_cache unlink with OSError swallowed) and leaves the
state unchanged — and deleting twice equals deleting once. -/
theorem delete_idempotent (s : MemState) (fs : FS) (key : PyStr)
    (hmem : alookup key s = none)
    (hfs : alookup (filePath key) fs = none) :
    memDelete s key = s ∧
    memDelete (memDelete s key) key = memDelete s key ∧
    fsDelete fs key = fs ∧
    fsDelete (fsDelete fs key) key = fsDelete fs key :=
  ⟨aremove_of_alookup_none hmem, aremove_aremove key s,
    aremove_of_alookup_none hfs, aremove_aremove (filePath key) fs⟩

/-- C7 witness: concrete deletes of an absent key on empty states. -/
theorem delete_idempotent_witness :
    alookup (pyStr "k") ([] : MemState) = none ∧
    memDelete ([] : MemState) (pyStr "k") = [] :=
  ⟨rfl, (delete_idempotent [] [] (pyStr "k") rfl rfl).1⟩

/-- C9: the in-memory expiry check is strict: an entry whose expiry
equals the current time is still returned, and only an expiry strictly in
the past is removed and reported absent. -/
theorem memGet_expiry_strict (s : MemState) (key : PyStr) (v : Bytes)
    (e now : ℚ) (h : alookup key s = some (v, e)) :
    (e = now → memGet s key now = (s, some v)) ∧
    (e < now → memGet s key now = (aremove key s, none)) := by
  constructor
  · intro he
    subst he
    simp [memGet, h]
  · intro hlt
    simp [memGet, h, hlt]

/-- C9 witness: an entry expiring exactly now is still served. -/
theorem memGet_expiry_strict_witness :
    alookup (pyStr "k") [(pyStr "k", (pyStr "v", (7 : ℚ)))] =
      some (pyStr "v", (7 : ℚ)) ∧
    memGet [(pyStr "k", (pyStr "v", (7 : ℚ)))] (pyStr "k") 7 =
      ([(pyStr "k", (pyStr "v", (7 : ℚ)))], some (pyStr "v")) :=
  ⟨rfl,
    (memGet_expiry_strict [(pyStr "k", (pyStr "v", (7 : ℚ)))] (pyStr "k")
      (pyStr "v") 7 7 rfl).1 rfl⟩

/-- C3: on both backends a stored entry whose expiry timestamp is
strictly in the past at call time is removed by get, which returns
absent — the expired value is never returned. -/
theorem expired_entry_removed_on_get (s : MemState) (fs : FS)
    (key : PyStr) (v : Bytes) (d : J) (e e2 now : ℚ)
    (hmem : alookup key s = some (v, e)) (he : e < now)
    (hfs : alookup (filePath key) fs = some (FileData.json d))
    (hexp : jGetItem d (pyStr "expires_at") = Except.ok (J.num e2))
    (he2 : e2 < now) :
    memGet s key now = (aremove key s, none) ∧
    fsGet fs key now = (aremove (filePath key) fs, Except.ok none) := by
  constructor
  · simp [memGet, hmem, he]
  · simp [fsGet, readCacheFile, hfs, hexp, pyGtFloat, he2]

/-- C3 witness: entries that expired at time 5, read at time 7, on both
backends. -/
theorem expired_entry_removed_on_get_witness :
    ((5 : ℚ) < 7) ∧
    memGet [(pyStr "k", (pyStr "v", (5 : ℚ)))] (pyStr "k") 7 =
      (aremove (pyStr "k") [(pyStr "k", (pyStr "v", (5 : ℚ)))], none) :=
  ⟨by decide,
    (expired_entry_removed_on_get
      [(pyStr "k", (pyStr "v", (5 : ℚ)))]
      [(filePath (pyStr "k"), FileData.json (J.obj
        [(pyStr "value", J.str (pyStr "v")),
         (pyStr "created_at", J.num 0),
         (pyStr "expires_at", J.num 5)]))]
      (pyStr "k") (pyStr "v")
      (J.obj [(pyStr "value", J.str (pyStr "v")),
        (pyStr "created_at", J.num 0), (pyStr "expires_at", J.num 5)])
      5 5 7 rfl (by decide) rfl rfl (by decide)).1⟩

/-- C4: the filesystem get tolerates an absent or unreadable file, UTF-8
text that is not valid JSON, and a record without the expiry field (all
give absent without raising); but a file whose bytes are not valid UTF-8
raises an uncaught UnicodeDecodeError, and a syntactically valid record
whose expiry timestamp is present and non-numeric — or whose top level is
not a mapping — raises an uncaught TypeError from the expiry access and
comparison.  Both raising cases contradict the claimed corrupt-record
tolerance. -/
theorem fsGet_corrupt_tolerance_gap :
    (fsGet [(filePath (pyStr "k"), FileData.corrupt)] (pyStr "k") 0).2 =
      Except.ok none ∧
    (fsGet [(filePath (pyStr "k"), FileData.unreadable)] (pyStr "k") 0).2 =
      Except.ok none ∧
    (fsGet [] (pyStr "k") 0).2 = Except.ok none ∧
    (fsGet [(filePath (pyStr "k"), FileData.json (J.obj
        [(pyStr "value", J.str (pyStr "v")),
         (pyStr "created_at", J.str (pyStr "bad"))]))] (pyStr "k") 0).2 =
      Except.ok none ∧
    (fsGet [(filePath (pyStr "k"), FileData.invalidUtf8)]
        (pyStr "k") 0).2 = Except.error PyErr.unicodeDecodeError ∧
    (fsGet [(filePath (pyStr "k"), FileData.json (J.obj
        [(pyStr "value", J.str (pyStr "v")),
         (pyStr "created_at", J.num 0),
         (pyStr "expires_at", J.str (pyStr "soon"))]))] (pyStr "k") 100).2 =
      Except.error PyErr.typeError ∧
    (fsGet [(filePath (pyStr "k"), FileData.json (J.arr []))]
        (pyStr "k") 0).2 = Except.error PyErr.typeError :=
  ⟨rfl, rfl, rfl, rfl, rfl, rfl, rfl⟩

/-- The field names of the on-disk record are pairwise distinct. -/
theorem pyStr_value_ne_expires : pyStr "value" ≠ pyStr "expires_at" := by
  decide

theorem pyStr_created_ne_expires :
    pyStr "created_at" ≠ pyStr "expires_at" := by decide

theorem pyStr_created_ne_value : pyStr "created_at" ≠ pyStr "value" := by
  decide

/-- Looking up the expiry field of a written record. -/
theorem record_expires_lookup (s : PyStr) (cq : ℚ) (ex : J) :
    jGetItem (J.obj [(pyStr "value", J.str s),
      (pyStr "created_at", J.num cq), (pyStr "expires_at", ex)])
      (pyStr "expires_at") = Except.ok ex := by
  simp [jGetItem, alookup, pyStr_value_ne_expires, pyStr_created_ne_expires]

/-- Looking up the value field of a written record. -/
theorem record_value_lookup (s : PyStr) (cq : ℚ) (ex : J) :
    alookup (pyStr "value") [(pyStr "value", J.str s),
      (pyStr "created_at", J.num cq), (pyStr "expires_at", ex)] =
      some (J.str s) := by
  simp [alookup]

/-- The final path and the temporary path of a key differ. -/
theorem filePath_ne_tempPath (key : PyStr) : filePath key ≠ tempPath key := by
  intro h
  have hlen := congrArg List.length h
  rw [tempPath, List.length_append] at hlen
  have h4 : (pyStr ".tmp").length = 4 := rfl
  omega

/-- C5 counterexample: a value that is not valid UTF-8 — the single byte
0xFF — makes set raise a UnicodeDecodeError instead of storing it, so the
set-then-get round trip does not return the value. -/
theorem fsSet_roundtrip_invalid_utf8_cex :
    (fsSet [] (pyStr "k") [255] (some 1) 0 WriteOutcome.allOk).2 =
      Except.error PyErr.unicodeDecodeError ∧
    (fsGet (fsSet [] (pyStr "k") [255] (some 1) 0 WriteOutcome.allOk).1
        (pyStr "k") 0).2 = Except.ok none ∧
    Except.ok (some ([255] : Bytes)) ≠
      (Except.ok none : Except PyErr (Option Bytes)) :=
  ⟨rfl, rfl, by simp⟩

/-- C5 (amended): for every value whose bytes are valid UTF-8, and any
ttl that is absent or positive with the read happening no later than the
expiry, set followed by get returns exactly the value byte for byte.  The
initial directory state is arbitrary, so this covers any number of
sequential overwrites of the same key: the last written value wins. -/
theorem fsSet_roundtrip_valid_utf8 (fs : FS) (key : PyStr) (value : Bytes)
    (cs : PyStr) (ttl : Option ℚ) (now t : ℚ)
    (hv : utf8Decode value = some cs)
    (httl : ttl = none ∨ ∃ d : ℚ, ttl = some d ∧ 0 < d ∧ ¬ now + d < t) :
    (fsSet fs key value ttl now WriteOutcome.allOk).2 = Except.ok () ∧
    (fsGet (fsSet fs key value ttl now WriteOutcome.allOk).1 key t).2 =
      Except.ok (some value) := by
  rcases httl with hn | ⟨d, hd, hdpos, ht⟩
  · subst hn
    constructor
    · simp [fsSet, writeCacheFile, writeCacheFile.writeRecordFile, hv]
    · simp [fsSet, writeCacheFile, writeCacheFile.writeRecordFile, hv,
        fsGet, readCacheFile, alookup_aset_self, record_expires_lookup,
        record_value_lookup, pyEncodeUtf8, utf8Encode_utf8Decode hv]
  · subst hd
    have hnle : ¬ d ≤ 0 := not_le.mpr hdpos
    constructor
    · simp [fsSet, writeCacheFile, writeCacheFile.writeRecordFile, hv,
        hnle]
    · simp [fsSet, writeCacheFile, writeCacheFile.writeRecordFile, hv,
        hnle, fsGet, readCacheFile, alookup_aset_self,
        record_expires_lookup, record_value_lookup, pyGtFloat, ht,
        pyEncodeUtf8, utf8Encode_utf8Decode hv]

/-- C5 witness: b"v1" round trips with no ttl on an empty directory. -/
theorem fsSet_roundtrip_valid_utf8_witness :
    utf8Decode (pyStr "v1") = some (pyStr "v1") ∧
    (fsGet (fsSet [] (pyStr "k") (pyStr "v1") none 0
        WriteOutcome.allOk).1 (pyStr "k") 9).2 =
      Except.ok (some (pyStr "v1")) :=
  ⟨rfl,
    (fsSet_roundtrip_valid_utf8 [] (pyStr "k") (pyStr "v1") (pyStr "v1")
      none 0 9 rfl (Or.inl rfl)).2⟩

/-- C6: when any step of the atomic write protocol fails with an IOError
(temp-file write, chmod, or rename), set propagates the failure, the
temporary file is removed, and the final path still holds exactly what it
held before the call. -/
theorem fsSet_write_failure_atomic (fs : FS) (key : PyStr)
    (value : Bytes) (cs : PyStr) (ttl : Option ℚ) (now : ℚ)
    (w : WriteOutcome) (hw : w ≠ WriteOutcome.allOk)
    (hv : utf8Decode value = some cs)
    (httl : ttl = none ∨ ∃ d : ℚ, ttl = some d ∧ 0 < d) :
    (fsSet fs key value ttl now w).2 = Except.error PyErr.ioError ∧
    alookup (tempPath key) (fsSet fs key value ttl now w).1 = none ∧
    alookup (filePath key) (fsSet fs key value ttl now w).1 =
      alookup (filePath key) fs := by
  have hres : fsSet fs key value ttl now w =
      (aremove (tempPath key) fs, Except.error PyErr.ioError) := by
    rcases httl with hn | ⟨d, hd, hdpos⟩
    · subst hn
      cases w with
      | allOk => exact absurd rfl hw
      | failWrite =>
        simp [fsSet, writeCacheFile, writeCacheFile.writeRecordFile, hv]
      | failChmod =>
        simp [fsSet, writeCacheFile, writeCacheFile.writeRecordFile, hv]
      | failReplace =>
        simp [fsSet, writeCacheFile, writeCacheFile.writeRecordFile, hv]
    · subst hd
      have hnle : ¬ d ≤ 0 := not_le.mpr hdpos
      cases w with
      | allOk => exact absurd rfl hw
      | failWrite =>
        simp [fsSet, writeCacheFile, writeCacheFile.writeRecordFile, hv,
          hnle]
      | failChmod =>
        simp [fsSet, writeCacheFile, writeCacheFile.writeRecordFile, hv,
          hnle]
      | failReplace =>
        simp [fsSet, writeCacheFile, writeCacheFile.writeRecordFile, hv,
          hnle]
  rw [hres]
  exact ⟨rfl, alookup_aremove_self _ _,
    alookup_aremove_ne fs (filePath_ne_tempPath key)⟩

/-- C6 witness: a failing temp-file write of b"v1" with no ttl leaves no
temporary file. -/
theorem fsSet_write_failure_atomic_witness :
    WriteOutcome.failWrite ≠ WriteOutcome.allOk ∧
    alookup (tempPath (pyStr "k"))
      (fsSet [] (pyStr "k") (pyStr "v1") none 0
        WriteOutcome.failWrite).1 = none :=
  ⟨by decide,
    (fsSet_write_failure_atomic [] (pyStr "k") (pyStr "v1") (pyStr "v1")
      none 0 WriteOutcome.failWrite (by decide) rfl (Or.inl rfl)).2.1⟩

/-- Entries whose key the predicate keeps are found unchanged after
filtering by key. -/
theorem alookup_filter_keep {β : Type} (name : PyStr) (q : PyStr → Bool)
    (m : List (PyStr × β)) (h : q name = true) :
    alookup name (m.filter (fun nf => q nf.1)) = alookup name m := by
  induction m with
  | nil => rfl
  | cons p rest ih =>
    obtain ⟨k', v⟩ := p
    by_cases hq : q k' = true
    · rw [List.filter_cons_of_pos (by simpa using hq), alookup, alookup]
      by_cases hp : k' = name
      · rw [if_pos hp, if_pos hp]
      · rw [if_neg hp, if_neg hp, ih]
    · have hne : k' ≠ name := fun hh => hq (hh ▸ h)
      rw [List.filter_cons_of_neg (by simpa using hq), alookup,
        if_neg hne, ih]

/-- Entries whose key the predicate drops are gone after filtering. -/
theorem alookup_filter_drop {β : Type} (name : PyStr) (q : PyStr → Bool)
    (m : List (PyStr × β)) (h : q name = false) :
    alookup name (m.filter (fun nf => q nf.1)) = none := by
  induction m with
  | nil => rfl
  | cons p rest ih =>
    obtain ⟨k', v⟩ := p
    by_cases hq : q k' = true
    · have hne : k' ≠ name := fun hh => by
        rw [hh, h] at hq
        exact Bool.false_ne_true hq
      rw [List.filter_cons_of_pos (by simpa using hq), alookup,
        if_neg hne, ih]
    · rw [List.filter_cons_of_neg (by simpa using hq), ih]

/-- Every derived cache path carries the cache-artifact suffix. -/
theorem endsWithCache_filePath (key : PyStr) :
    endsWithCache (filePath key) = true := by
  simp [endsWithCache, filePath]

/-- C8: clear with the directory present and listable removes exactly the
files carrying the ".cache" suffix (when the unlinks succeed), leaves any
file without the suffix bound as before under any pattern of swallowed
unlink failures, is a no-op when the directory is missing or cannot be
listed, and afterwards get returns absent for every key.  The operation
is a total function: no failure escapes it. -/
theorem fsClear_removes_exactly_cache_files (fs : FS)
    (removeFails : PyStr → Bool) (key name : PyStr) (now : ℚ) :
    fsClear fs true true (fun _ => false) =
      fs.filter (fun nf => !endsWithCache nf.1) ∧
    (endsWithCache name = false →
      alookup name (fsClear fs true true removeFails) = alookup name fs) ∧
    fsClear fs false true removeFails = fs ∧
    fsClear fs true false removeFails = fs ∧
    (fsGet (fsClear fs true true (fun _ => false)) key now).2 =
      Except.ok none := by
  have hfull : fsClear fs true true (fun _ => false) =
      fs.filter (fun nf => !endsWithCache nf.1) := by
    simp [fsClear]
  refine ⟨hfull, ?_, rfl, rfl, ?_⟩
  · intro hn
    have : fsClear fs true true removeFails =
        fs.filter (fun nf => !endsWithCache nf.1 || removeFails nf.1) := by
      simp [fsClear]
    rw [this,
      alookup_filter_keep name (fun n => !endsWithCache n || removeFails n)
        fs (by simp [hn])]
  · rw [hfull]
    have hpath : alookup (filePath key)
        (fs.filter (fun nf => !endsWithCache nf.1)) = none :=
      alookup_filter_drop (filePath key) (fun n => !endsWithCache n) fs
        (by simp [endsWithCache_filePath])
    simp [fsGet, readCacheFile, hpath]

/-- C8 witness: one cache file and one unrelated file; after clear the
unrelated file survives. -/
theorem fsClear_removes_exactly_cache_files_witness :
    endsWithCache (pyStr "readme.txt") = false ∧
    alookup (pyStr "readme.txt")
      (fsClear [(filePath (pyStr "k"), FileData.corrupt),
        (pyStr "readme.txt", FileData.corrupt)] true true
        (fun _ => false)) =
      alookup (pyStr "readme.txt")
        [(filePath (pyStr "k"), FileData.corrupt),
          (pyStr "readme.txt", FileData.corrupt)] :=
  ⟨by decide,
    (fsClear_removes_exactly_cache_files
      [(filePath (pyStr "k"), FileData.corrupt),
        (pyStr "readme.txt", FileData.corrupt)]
      (fun _ => false) (pyStr "k") (pyStr "readme.txt") 0).2.1
      (by decide)⟩

/-- C10: in both memoization decorators a hit is recognized only when the
cached payload deserializes to something other than None.  Hence when the
wrapped function returns None, every call runs the function: the state it
leaves (the key bound to serialized None) again fails the hit test, the
function runs again and the None is re-stored — stored but never served.
The hypothesis states that the key is unbound or bound to serialized
None, the invariant every such call preserves. -/
theorem cached_none_result_always_invokes (s : FacadeState) (key : PyStr)
    (ttl : Option ℚ) (defaultTtl now : ℚ)
    (h : alookup key s = none ∨
      ∃ e : Option ℚ, alookup key s = some (J.null, e)) :
    ((cachedCall J.null key ttl defaultTtl s now).invoked = true ∧
      ∃ e2 : Option ℚ,
        alookup key (cachedCall J.null key ttl defaultTtl s now).state =
          some (J.null, e2)) ∧
    ((cachedHelperCall J.null key ttl defaultTtl s now).invoked = true ∧
      ∃ e2 : Option ℚ,
        alookup key
            (cachedHelperCall J.null key ttl defaultTtl s now).state =
          some (J.null, e2)) := by
  have hsame : cachedHelperCall J.null key ttl defaultTtl s now =
      cachedCall J.null key ttl defaultTtl s now := rfl
  have hset : ∀ s1 : FacadeState, ∃ e2 : Option ℚ,
      alookup key (cacheSet s1 key J.null ttl defaultTtl now) =
        some (J.null, e2) := by
    intro s1
    cases ttl with
    | none =>
      exact ⟨some (now + defaultTtl), by
        simp [cacheSet, pmSet, jsonSerialize, alookup_aset_self]⟩
    | some q =>
      exact ⟨some (now + q), by
        simp [cacheSet, pmSet, jsonSerialize, alookup_aset_self]⟩
  have hget : ∃ s1, cacheGet s key now = (s1, J.null) := by
    rcases h with hnone | ⟨e, hsome⟩
    · exact ⟨s, by simp [cacheGet, pmGet, hnone]⟩
    · cases e with
      | none =>
        exact ⟨s, by simp [cacheGet, pmGet, hsome, jsonDeserialize]⟩
      | some e2 =>
        by_cases hlt : e2 < now
        · exact ⟨aremove key s, by simp [cacheGet, pmGet, hsome, hlt]⟩
        · exact ⟨s, by
            simp [cacheGet, pmGet, hsome, hlt, jsonDeserialize]⟩
  obtain ⟨s1, hget⟩ := hget
  have hcall : cachedCall J.null key ttl defaultTtl s now =
      ⟨J.null, cacheSet s1 key J.null ttl defaultTtl now, true⟩ := by
    simp [cachedCall, hget]
  have hmain : (cachedCall J.null key ttl defaultTtl s now).invoked =
        true ∧
      ∃ e2 : Option ℚ,
        alookup key (cachedCall J.null key ttl defaultTtl s now).state =
          some (J.null, e2) := by
    rw [hcall]
    exact ⟨rfl, hset s1⟩
  exact ⟨hmain, by rw [hsame]; exact hmain⟩

/-- C10 witness: from a state already holding serialized None for the
key, the call still invokes the function. -/
theorem cached_none_result_always_invokes_witness :
    (alookup (pyStr "f") [(pyStr "f", (J.null, (some 9 : Option ℚ)))] =
        none ∨
      ∃ e : Option ℚ,
        alookup (pyStr "f") [(pyStr "f", (J.null, (some 9 : Option ℚ)))] =
          some (J.null, e)) ∧
    (cachedCall J.null (pyStr "f") none 300
        [(pyStr "f", (J.null, (some 9 : Option ℚ)))] 0).invoked = true :=
  ⟨Or.inr ⟨some 9, rfl⟩,
    (cached_none_result_always_invokes
      [(pyStr "f", (J.null, (some 9 : Option ℚ)))] (pyStr "f") none 300 0
      (Or.inr ⟨some 9, rfl⟩)).1.1⟩
